import Mathlib

/-!
Verification development for the image-buffer core of this repository
(`source/image/ImageBuffer.cpp`): a flat multi-frame RGBA8888 pixel buffer,
PNG/JPEG decode dispatch, in-place alpha premultiplication, and a 2x2
box-filter half-size reduction.

Modelling conventions:
* C++ `int`/`uint32_t`/`uint64_t` quantities are embedded as `Nat`; truncation
  to 32 bits (`static_cast<uint32_t>`) becomes an explicit `% 2 ^ 32`.
* The owned pixel array `uint32_t *pixels` becomes `Option (Nat → Nat)`:
  `none` is the null pointer, `some px` maps a flat pixel index to the stored
  32-bit value.  `new uint32_t[n]` leaves the array contents indeterminate;
  the model fills fresh storage with zeros, and no theorem below depends on
  the contents of freshly allocated, not-yet-written pixels.
* `reinterpret_cast<unsigned char *>` byte access is little-endian: byte `c`
  of pixel value `v` is `v / 256 ^ c % 256`, so byte index `i` of the buffer
  addresses channel `i % 4` of pixel `i / 4`.
* The decoding libraries (libpng / libjpeg) are external; a successfully
  parsed stream is abstracted as an `ImageFile` (header width/height plus the
  decoded RGBA scanline data), and an unreadable / empty / malformed stream
  as `none`.  Everything after header parsing (allocation, dimension
  validation, scanline writes, premultiplication dispatch) follows the source.
-/

/-- Modelled from the spec: the `BlendingMode` enumeration consumed by
`ImageBuffer::Read` (its declaring header is outside the excerpt).  The spec
names a default straight-alpha mode plus the three explicit modes the source
tests for. -/
inductive BlendingMode where
  | STRAIGHT_ALPHA
  | PREMULTIPLIED_ALPHA
  | ADDITIVE
  | HALF_ADDITIVE
deriving DecidableEq, Repr

/-- The state of an `ImageBuffer`: fixed dimensions, frame count, and the
optionally-allocated flat pixel array (flat index `x + width * (y + height *
frame)`, one 32-bit RGBA value per entry). -/
structure ImageBuffer where
  width : Nat
  height : Nat
  frames : Nat
  pixels : Option (Nat → Nat)

/-- `ImageBuffer::ImageBuffer(int frames)`: width and height start at 0 and
the pixel array starts null. -/
def ImageBuffer.ofFrames (frames : Nat) : ImageBuffer :=
  ImageBuffer.mk 0 0 frames none

/-- `ImageBuffer::Clear(int frames)`: delete the pixel array, null it, and set
the frame count.  (It does not touch `width` or `height`.) -/
def ImageBuffer.Clear (b : ImageBuffer) (frames : Nat) : ImageBuffer :=
  { b with pixels := none, frames := frames }

/-- `ImageBuffer::Allocate(int width, int height)`: do nothing if the buffer
is already allocated or any dimension is zero; otherwise allocate
`width * height * frames` pixels and fix the dimensions. -/
def ImageBuffer.Allocate (b : ImageBuffer) (width height : Nat) : ImageBuffer :=
  if b.pixels.isSome = true ∨ width = 0 ∨ height = 0 ∨ b.frames = 0 then b
  else { b with width := width, height := height, pixels := some (fun _ => 0) }

/-- `ImageBuffer::Width()`. -/
def ImageBuffer.Width (b : ImageBuffer) : Nat := b.width

/-- `ImageBuffer::Height()`. -/
def ImageBuffer.Height (b : ImageBuffer) : Nat := b.height

/-- `ImageBuffer::Frames()`. -/
def ImageBuffer.Frames (b : ImageBuffer) : Nat := b.frames

/-- `ImageBuffer::Begin(int y, int frame)`: flat pixel index of the first
pixel of row `y` of frame `frame` (`pixels + width * (y + height * frame)`). -/
def ImageBuffer.Begin (b : ImageBuffer) (y frame : Nat) : Nat :=
  b.width * (y + b.height * frame)

/-- The 32-bit value stored at flat pixel index `i` (0 when unallocated; the
C++ would fault there, and every theorem below supplies an allocated buffer
where it matters). -/
def ImageBuffer.pixelAt (b : ImageBuffer) (i : Nat) : Nat :=
  match b.pixels with
  | some px => px i
  | none => 0

/-- Byte `c` (little-endian channel index: 0 = blue-lane low byte, 3 = alpha
high byte) of the 32-bit value `v`. -/
def chan (v c : Nat) : Nat := v / 256 ^ c % 256

/-- Byte `i` of the pixel storage viewed through
`reinterpret_cast<unsigned char *>`: channel `i % 4` of pixel `i / 4`. -/
def ImageBuffer.byteAt (b : ImageBuffer) (i : Nat) : Nat :=
  chan (b.pixelAt (i / 4)) (i % 4)

/-- `ImageBuffer::ShrinkToHalfSize()`: build `result` with the same frame
count, allocate it at `width / 2` by `height / 2`, then walk every output
byte in order.  For output flat row `y` (ranging over
`result.height * frames`), the row pointers are
`aIt = begin + (4 * width) * (2 * y)` and `bIt = begin + (4 * width) * (2 * y + 1)`;
for output column `x` and channel `c` the written byte is
`(aIt[0] + bIt[0] + aIt[4] + bIt[4] + 2) / 4` with `aIt`/`bIt` advanced 8
bytes per column.  Finally the result is swapped into place (modelled by
returning `result`).  When `Allocate` declined (a halved dimension or the
frame count is zero) the loop body never runs and the swapped-in buffer is
the unallocated `result`. -/
def ImageBuffer.ShrinkToHalfSize (b : ImageBuffer) : ImageBuffer :=
  let result := (ImageBuffer.ofFrames b.frames).Allocate (b.width / 2) (b.height / 2)
  match result.pixels with
  | none => result
  | some _ =>
      { result with pixels := some (fun p =>
          let x := p % (b.width / 2)
          let y := p / (b.width / 2)
          let outByte := fun c =>
            (b.byteAt (4 * b.width * (2 * y) + 8 * x + c)
              + b.byteAt (4 * b.width * (2 * y + 1) + 8 * x + c)
              + b.byteAt (4 * b.width * (2 * y) + 8 * x + c + 4)
              + b.byteAt (4 * b.width * (2 * y + 1) + 8 * x + c + 4) + 2) / 4
          outByte 0 + 256 * outByte 1 + 65536 * outByte 2 + 16777216 * outByte 3) }

/-- The body of `Premultiply`'s inner loop, acting on one packed 32-bit pixel
(`uint64_t value = *it; ...; *it = static_cast<uint32_t>(value);`). -/
def PremultiplyPixel (blend : BlendingMode) (pix : Nat) : Nat :=
  let value := pix
  let alpha := (value &&& 0xFF000000) >>> 24
  let red := ((value &&& 0xFF0000) * alpha / 255) &&& 0xFF0000
  let green := ((value &&& 0xFF00) * alpha / 255) &&& 0xFF00
  let blue := ((value &&& 0xFF) * alpha / 255) &&& 0xFF
  let value := red ||| green ||| blue
  let alpha := if blend = BlendingMode.HALF_ADDITIVE then alpha >>> 2 else alpha
  let value := if blend ≠ BlendingMode.ADDITIVE then value ||| (alpha <<< 24) else value
  value % 2 ^ 32

/-- `Premultiply(ImageBuffer &buffer, int frame, BlendingMode blend)`: apply
`PremultiplyPixel` in place to every pixel of rows `0 ≤ y < height` of the
given frame, i.e. to flat indices in
`[width * height * frame, width * height * (frame + 1))`. -/
def Premultiply (buffer : ImageBuffer) (frame : Nat) (blend : BlendingMode) : ImageBuffer :=
  { buffer with pixels := buffer.pixels.map (fun px i =>
      if buffer.width * buffer.height * frame ≤ i ∧
          i < buffer.width * buffer.height * (frame + 1)
      then PremultiplyPixel blend (px i) else px i) }

/-- `PNG_EXTENSIONS`. -/
def PNG_EXTENSIONS : List String := [".png"]

/-- `JPG_EXTENSIONS`. -/
def JPG_EXTENSIONS : List String := [".jpg", ".jpeg", ".jpe"]

/-- The fields of `ImageFileData` that `ImageBuffer::Read` consumes (the type
itself is an external descriptor; its `path` only feeds the abstracted I/O). -/
structure ImageFileData where
  extension : String
  blendingMode : BlendingMode

/-- A successfully parsed image stream, as delivered by the decoding library:
header dimensions and the decoded RGBA pixel at each row-major index
`x + width * y` within the frame. -/
structure ImageFile where
  width : Nat
  height : Nat
  data : Nat → Nat

/-- Write one decoded frame into the buffer through the row views
`rows[y] = buffer.Begin(y, frame)`: flat indices in
`[width * height * frame, width * height * (frame + 1))` receive the decoded
data at the corresponding in-frame offset. -/
def writeFrame (b : ImageBuffer) (frame : Nat) (data : Nat → Nat) : ImageBuffer :=
  { b with pixels := b.pixels.map (fun px i =>
      if b.width * b.height * frame ≤ i ∧ i < b.width * b.height * (frame + 1)
      then data (i - b.width * b.height * frame) else px i) }

/-- `ReadPNG(path, buffer, frame)`: `none` stands for every early failure
(unopenable file, libpng setup failure, longjmp abort).  Otherwise: allocate
the buffer if this is the first frame, then validate this frame's header
dimensions against the (now fixed) buffer dimensions — on mismatch return
failure having written no pixel; on success write the frame's scanlines. -/
def ReadPNG (file : Option ImageFile) (buffer : ImageBuffer) (frame : Nat) :
    Bool × ImageBuffer :=
  match file with
  | none => (false, buffer)
  | some f =>
      let buffer := buffer.Allocate f.width f.height
      if f.width = 0 ∨ f.height = 0 ∨ f.width ≠ buffer.Width ∨ f.height ≠ buffer.Height
      then (false, buffer)
      else (true, writeFrame buffer frame f.data)

/-- `ReadJPG(path, buffer, frame)`: `none` stands for an empty `Files::Read`
result.  The allocate / validate / scanline-write sequence mirrors the PNG
path. -/
def ReadJPG (file : Option ImageFile) (buffer : ImageBuffer) (frame : Nat) :
    Bool × ImageBuffer :=
  match file with
  | none => (false, buffer)
  | some f =>
      let buffer := buffer.Allocate f.width f.height
      if f.width = 0 ∨ f.height = 0 ∨ f.width ≠ buffer.Width ∨ f.height ≠ buffer.Height
      then (false, buffer)
      else (true, writeFrame buffer frame f.data)

/-- `ImageBuffer::Read(const ImageFileData &data, int frame)`: reject
unsupported extensions without touching the buffer; run the matching decoder
(whose buffer mutations persist even when it fails); on decode success,
premultiply exactly when the blending mode is not `PREMULTIPLIED_ALPHA` and
the file is a PNG, or a JPEG with `ADDITIVE` blending. -/
def ImageBuffer.Read (b : ImageBuffer) (d : ImageFileData) (file : Option ImageFile)
    (frame : Nat) : Bool × ImageBuffer :=
  if d.extension ∉ PNG_EXTENSIONS ∧ d.extension ∉ JPG_EXTENSIONS then (false, b)
  else
    let r1 := if d.extension ∈ PNG_EXTENSIONS then ReadPNG file b frame else (true, b)
    if d.extension ∈ PNG_EXTENSIONS ∧ r1.1 = false then (false, r1.2)
    else
      let r2 := if d.extension ∈ JPG_EXTENSIONS then ReadJPG file r1.2 frame else r1
      if d.extension ∈ JPG_EXTENSIONS ∧ r2.1 = false then (false, r2.2)
      else
        (true,
          if d.blendingMode ≠ BlendingMode.PREMULTIPLIED_ALPHA ∧
              (d.extension ∈ PNG_EXTENSIONS ∨
                (d.extension ∈ JPG_EXTENSIONS ∧ d.blendingMode = BlendingMode.ADDITIVE))
          then Premultiply r2.2 frame d.blendingMode
          else r2.2)

/-! ### Bit-level arithmetic toolbox

`Premultiply` works on packed 32-bit pixels through byte-lane masks.  The
lemmas here turn each mask/shift expression into its arithmetic byte-field
form, so that the per-pixel transform collapses to a closed formula over the
four channel bytes. -/

/-- A byte-lane mask extracts a byte field:
`v &&& (2 ^ k * 255) = 2 ^ k * (v / 2 ^ k % 256)`. -/
lemma and_byte_mask (v k : Nat) : v &&& 2 ^ k * 255 = 2 ^ k * (v / 2 ^ k % 256) := by
  apply Nat.eq_of_testBit_eq
  intro j
  have h1 : (2 : Nat) ^ k * 255 = 2 ^ k * (2 ^ 8 - 1) := by norm_num
  have h2 : (256 : Nat) = 2 ^ 8 := by norm_num
  rw [Nat.testBit_and, h1, Nat.testBit_mul_pow_two, Nat.testBit_two_pow_sub_one, h2,
    Nat.testBit_mul_pow_two, ← Nat.shiftRight_eq_div_pow, Nat.testBit_mod_two_pow,
    Nat.testBit_shiftRight]
  by_cases hk : k ≤ j
  · have hkj : k + (j - k) = j := by omega
    rw [hkj]
    cases hb : v.testBit j <;> simp [hk, hb]
  · simp [hk]

/-- Each channel byte is below 256. -/
lemma chan_lt (v c : Nat) : chan v c < 256 :=
  Nat.mod_lt _ (by norm_num)

/-- The truncating premultiplied channel is again a byte. -/
lemma premul_chan_lt (v c : Nat) : chan v c * chan v 3 / 255 < 256 := by
  have h1 : chan v c ≤ 255 := by have := chan_lt v c; omega
  have h2 : chan v 3 ≤ 255 := by have := chan_lt v 3; omega
  have h3 : chan v c * chan v 3 ≤ 255 * 255 := Nat.mul_le_mul h1 h2
  omega

/-- `alpha = (value & 0xFF000000) >> 24` is the alpha byte. -/
lemma premul_alpha (v : Nat) : (v &&& 0xFF000000) >>> 24 = chan v 3 := by
  have hm : (0xFF000000 : Nat) = 2 ^ 24 * 255 := by norm_num
  rw [hm, and_byte_mask, Nat.shiftRight_eq_div_pow, Nat.mul_div_cancel_left _ (by norm_num)]
  unfold chan
  norm_num

/-- `red = (((value & 0xFF0000) * alpha) / 255) & 0xFF0000` in byte-field
form. -/
lemma premul_red (v : Nat) :
    ((v &&& 0xFF0000) * ((v &&& 0xFF000000) >>> 24) / 255) &&& 0xFF0000
      = 2 ^ 16 * (chan v 2 * chan v 3 / 255) := by
  rw [premul_alpha]
  have hm : (0xFF0000 : Nat) = 2 ^ 16 * 255 := by norm_num
  have hc : chan v 2 = v / 2 ^ 16 % 256 := by unfold chan; norm_num
  rw [hm, and_byte_mask, and_byte_mask, ← hc, Nat.mul_assoc, Nat.div_div_eq_div_mul,
    Nat.mul_comm 255 (2 ^ 16), Nat.mul_div_mul_left _ _ (by norm_num),
    Nat.mod_eq_of_lt (premul_chan_lt v 2)]

/-- `green = (((value & 0xFF00) * alpha) / 255) & 0xFF00` in byte-field
form. -/
lemma premul_green (v : Nat) :
    ((v &&& 0xFF00) * ((v &&& 0xFF000000) >>> 24) / 255) &&& 0xFF00
      = 2 ^ 8 * (chan v 1 * chan v 3 / 255) := by
  rw [premul_alpha]
  have hm : (0xFF00 : Nat) = 2 ^ 8 * 255 := by norm_num
  have hc : chan v 1 = v / 2 ^ 8 % 256 := by unfold chan; norm_num
  rw [hm, and_byte_mask, and_byte_mask, ← hc, Nat.mul_assoc, Nat.div_div_eq_div_mul,
    Nat.mul_comm 255 (2 ^ 8), Nat.mul_div_mul_left _ _ (by norm_num),
    Nat.mod_eq_of_lt (premul_chan_lt v 1)]

/-- `blue = (((value & 0xFF) * alpha) / 255) & 0xFF` in byte-field form. -/
lemma premul_blue (v : Nat) :
    ((v &&& 0xFF) * ((v &&& 0xFF000000) >>> 24) / 255) &&& 0xFF
      = chan v 0 * chan v 3 / 255 := by
  rw [premul_alpha]
  have hm : (0xFF : Nat) = 2 ^ 8 - 1 := by norm_num
  have hc : chan v 0 = v % 256 := by unfold chan; norm_num
  have h256 : (256 : Nat) = 2 ^ 8 := by norm_num
  rw [hm, Nat.and_pow_two_sub_one_eq_mod, Nat.and_pow_two_sub_one_eq_mod, ← h256, ← hc,
    Nat.mod_eq_of_lt (premul_chan_lt v 0)]

/-- `red | green | blue` packs the three disjoint byte lanes additively. -/
lemma premul_rgb (v : Nat) :
    (((v &&& 0xFF0000) * ((v &&& 0xFF000000) >>> 24) / 255) &&& 0xFF0000) |||
      (((v &&& 0xFF00) * ((v &&& 0xFF000000) >>> 24) / 255) &&& 0xFF00) |||
      (((v &&& 0xFF) * ((v &&& 0xFF000000) >>> 24) / 255) &&& 0xFF)
      = 2 ^ 16 * (chan v 2 * chan v 3 / 255) + 2 ^ 8 * (chan v 1 * chan v 3 / 255)
        + chan v 0 * chan v 3 / 255 := by
  rw [premul_red, premul_green, premul_blue]
  have hG := premul_chan_lt v 1
  have hB := premul_chan_lt v 0
  have h1 : 2 ^ 8 * (chan v 1 * chan v 3 / 255) < 2 ^ 16 := by omega
  rw [← Nat.mul_add_lt_is_or h1]
  have hsum : 2 ^ 16 * (chan v 2 * chan v 3 / 255) + 2 ^ 8 * (chan v 1 * chan v 3 / 255)
      = 2 ^ 8 * (2 ^ 8 * (chan v 2 * chan v 3 / 255) + chan v 1 * chan v 3 / 255) := by
    ring
  have hB8 : chan v 0 * chan v 3 / 255 < 2 ^ 8 := by omega
  rw [hsum, ← Nat.mul_add_lt_is_or hB8]

/-- Folding the (possibly shifted) alpha byte into the high lane. -/
lemma premul_or_alpha (w a : Nat) (hw : w < 2 ^ 24) :
    w ||| (a <<< 24) = 2 ^ 24 * a + w := by
  rw [Nat.shiftLeft_eq, Nat.mul_comm a (2 ^ 24), Nat.or_comm, ← Nat.mul_add_lt_is_or hw]

/-- Closed arithmetic form of the per-pixel premultiplication: each colour
lane holds `floor(channel * alpha / 255)`, and the alpha lane holds 0
(`ADDITIVE`), `alpha / 4` (`HALF_ADDITIVE`) or the unchanged alpha. -/
theorem PremultiplyPixel_eq (blend : BlendingMode) (v : Nat) :
    PremultiplyPixel blend v =
      2 ^ 24 * (if blend = BlendingMode.ADDITIVE then 0
        else if blend = BlendingMode.HALF_ADDITIVE then chan v 3 / 4 else chan v 3)
      + 2 ^ 16 * (chan v 2 * chan v 3 / 255)
      + 2 ^ 8 * (chan v 1 * chan v 3 / 255)
      + chan v 0 * chan v 3 / 255 := by
  have hR := premul_chan_lt v 2
  have hG := premul_chan_lt v 1
  have hB := premul_chan_lt v 0
  have hA := chan_lt v 3
  have hrgb : 2 ^ 16 * (chan v 2 * chan v 3 / 255) + 2 ^ 8 * (chan v 1 * chan v 3 / 255)
      + chan v 0 * chan v 3 / 255 < 2 ^ 24 := by omega
  have hquarter : chan v 3 >>> 2 = chan v 3 / 4 := by
    rw [Nat.shiftRight_eq_div_pow]
  cases blend
  · simp +decide only [PremultiplyPixel, ite_true, ite_false]
    rw [premul_rgb, premul_alpha, premul_or_alpha _ _ hrgb, Nat.mod_eq_of_lt (by omega)]
    omega
  · simp +decide only [PremultiplyPixel, ite_true, ite_false]
    rw [premul_rgb, premul_alpha, premul_or_alpha _ _ hrgb, Nat.mod_eq_of_lt (by omega)]
    omega
  · simp +decide only [PremultiplyPixel, ite_true, ite_false]
    rw [premul_rgb, Nat.mod_eq_of_lt (by omega)]
    omega
  · simp +decide only [PremultiplyPixel, ite_true, ite_false]
    rw [premul_rgb, premul_alpha, hquarter, premul_or_alpha _ _ hrgb,
      Nat.mod_eq_of_lt (by omega)]
    omega

/-- The four channel bytes of the packed form. -/
lemma chan_pack (a r g bl : Nat) (ha : a < 256) (hr : r < 256) (hg : g < 256)
    (hbl : bl < 256) :
    chan (2 ^ 24 * a + 2 ^ 16 * r + 2 ^ 8 * g + bl) 3 = a ∧
    chan (2 ^ 24 * a + 2 ^ 16 * r + 2 ^ 8 * g + bl) 2 = r ∧
    chan (2 ^ 24 * a + 2 ^ 16 * r + 2 ^ 8 * g + bl) 1 = g ∧
    chan (2 ^ 24 * a + 2 ^ 16 * r + 2 ^ 8 * g + bl) 0 = bl := by
  unfold chan
  norm_num
  omega

/-- The channel bytes written by `PremultiplyPixel`. -/
theorem PremultiplyPixel_chan (blend : BlendingMode) (v : Nat) :
    chan (PremultiplyPixel blend v) 3 =
      (if blend = BlendingMode.ADDITIVE then 0
        else if blend = BlendingMode.HALF_ADDITIVE then chan v 3 / 4 else chan v 3) ∧
    chan (PremultiplyPixel blend v) 2 = chan v 2 * chan v 3 / 255 ∧
    chan (PremultiplyPixel blend v) 1 = chan v 1 * chan v 3 / 255 ∧
    chan (PremultiplyPixel blend v) 0 = chan v 0 * chan v 3 / 255 := by
  have hA : (if blend = BlendingMode.ADDITIVE then 0
      else if blend = BlendingMode.HALF_ADDITIVE then chan v 3 / 4 else chan v 3) < 256 := by
    have := chan_lt v 3
    split
    · omega
    · split <;> omega
  rw [PremultiplyPixel_eq]
  exact chan_pack _ _ _ _ hA (premul_chan_lt v 2) (premul_chan_lt v 1) (premul_chan_lt v 0)

/-- `Premultiply` maps exactly the pixels of the requested frame through
`PremultiplyPixel`. -/
lemma Premultiply_pixelAt (b : ImageBuffer) (px : Nat → Nat) (frame i : Nat)
    (blend : BlendingMode) (hpx : b.pixels = some px)
    (hin : b.width * b.height * frame ≤ i ∧ i < b.width * b.height * (frame + 1)) :
    (Premultiply b frame blend).pixelAt i = PremultiplyPixel blend (px i) := by
  simp [Premultiply, ImageBuffer.pixelAt, hpx, hin]

/-- Truncating premultiplication by a byte-sized alpha never increases a
channel. -/
lemma premul_le (x a : Nat) (ha : a < 256) : x * a / 255 ≤ x := by
  have h1 : x * a ≤ x * 255 := Nat.mul_le_mul_left x (by omega)
  have h2 : x * a / 255 ≤ x * 255 / 255 := Nat.div_le_div_right h1
  have h3 : x * 255 / 255 = x := by omega
  omega

/-- Claim C4: for every pixel processed by `Premultiply`, in every blend mode,
each output colour channel (red = byte 2, green = byte 1, blue = byte 0 of
the packed ARGB value) equals `floor(channel * alpha / 255)` computed by
truncating integer division from that pixel's own channel and alpha bytes,
with no cross-channel contamination in the packed 32-bit result. -/
theorem premultiply_color_channels (b : ImageBuffer) (px : Nat → Nat)
    (blend : BlendingMode) (frame i : Nat) (hpx : b.pixels = some px)
    (hin : b.width * b.height * frame ≤ i ∧ i < b.width * b.height * (frame + 1)) :
    chan ((Premultiply b frame blend).pixelAt i) 2 = chan (px i) 2 * chan (px i) 3 / 255 ∧
    chan ((Premultiply b frame blend).pixelAt i) 1 = chan (px i) 1 * chan (px i) 3 / 255 ∧
    chan ((Premultiply b frame blend).pixelAt i) 0 = chan (px i) 0 * chan (px i) 3 / 255 := by
  rw [Premultiply_pixelAt b px frame i blend hpx hin]
  have h := PremultiplyPixel_chan blend (px i)
  exact ⟨h.2.1, h.2.2.1, h.2.2.2⟩

/-- Witness for C4: a one-pixel buffer holding `0x80C86432`
(alpha 128, red 200, green 100, blue 50), straight-alpha mode. -/
theorem premultiply_color_channels_witness :
    chan ((Premultiply (ImageBuffer.mk 1 1 1 (some (fun _ => 0x80C86432))) 0
        BlendingMode.STRAIGHT_ALPHA).pixelAt 0) 2
      = chan ((fun _ : Nat => 0x80C86432) 0) 2 * chan ((fun _ : Nat => 0x80C86432) 0) 3 / 255 ∧
    chan ((Premultiply (ImageBuffer.mk 1 1 1 (some (fun _ => 0x80C86432))) 0
        BlendingMode.STRAIGHT_ALPHA).pixelAt 0) 1
      = chan ((fun _ : Nat => 0x80C86432) 0) 1 * chan ((fun _ : Nat => 0x80C86432) 0) 3 / 255 ∧
    chan ((Premultiply (ImageBuffer.mk 1 1 1 (some (fun _ => 0x80C86432))) 0
        BlendingMode.STRAIGHT_ALPHA).pixelAt 0) 0
      = chan ((fun _ : Nat => 0x80C86432) 0) 0 * chan ((fun _ : Nat => 0x80C86432) 0) 3 / 255 :=
  premultiply_color_channels (ImageBuffer.mk 1 1 1 (some (fun _ => 0x80C86432)))
    (fun _ => 0x80C86432) BlendingMode.STRAIGHT_ALPHA 0 0 rfl (by norm_num)

/-- Claim C5: for every pixel processed by `Premultiply`, `ADDITIVE` mode
writes output alpha 0 and `HALF_ADDITIVE` mode writes output alpha
`floor(alpha / 4)`. -/
theorem premultiply_alpha_modes (b : ImageBuffer) (px : Nat → Nat) (frame i : Nat)
    (hpx : b.pixels = some px)
    (hin : b.width * b.height * frame ≤ i ∧ i < b.width * b.height * (frame + 1)) :
    chan ((Premultiply b frame BlendingMode.ADDITIVE).pixelAt i) 3 = 0 ∧
    chan ((Premultiply b frame BlendingMode.HALF_ADDITIVE).pixelAt i) 3
      = chan (px i) 3 / 4 := by
  constructor
  · rw [Premultiply_pixelAt b px frame i _ hpx hin]
    have h := (PremultiplyPixel_chan BlendingMode.ADDITIVE (px i)).1
    rwa [if_pos rfl] at h
  · rw [Premultiply_pixelAt b px frame i _ hpx hin]
    have h := (PremultiplyPixel_chan BlendingMode.HALF_ADDITIVE (px i)).1
    rwa [if_neg (by decide), if_pos rfl] at h

/-- Witness for C5 at the same concrete one-pixel buffer (alpha byte 128). -/
theorem premultiply_alpha_modes_witness :
    chan ((Premultiply (ImageBuffer.mk 1 1 1 (some (fun _ => 0x80C86432))) 0
        BlendingMode.ADDITIVE).pixelAt 0) 3 = 0 ∧
    chan ((Premultiply (ImageBuffer.mk 1 1 1 (some (fun _ => 0x80C86432))) 0
        BlendingMode.HALF_ADDITIVE).pixelAt 0) 3
      = chan ((fun _ : Nat => 0x80C86432) 0) 3 / 4 :=
  premultiply_alpha_modes (ImageBuffer.mk 1 1 1 (some (fun _ => 0x80C86432)))
    (fun _ => 0x80C86432) 0 0 rfl (by norm_num)

/-- Claim C8: for every pixel processed by `Premultiply` in straight/default
mode (neither `ADDITIVE` nor `HALF_ADDITIVE`), no output colour channel
exceeds the corresponding input channel, and the output alpha equals the
input alpha. -/
theorem premultiply_straight_attenuates (b : ImageBuffer) (px : Nat → Nat)
    (blend : BlendingMode) (frame i : Nat) (hpx : b.pixels = some px)
    (hin : b.width * b.height * frame ≤ i ∧ i < b.width * b.height * (frame + 1))
    (hadd : blend ≠ BlendingMode.ADDITIVE) (hhalf : blend ≠ BlendingMode.HALF_ADDITIVE) :
    chan ((Premultiply b frame blend).pixelAt i) 2 ≤ chan (px i) 2 ∧
    chan ((Premultiply b frame blend).pixelAt i) 1 ≤ chan (px i) 1 ∧
    chan ((Premultiply b frame blend).pixelAt i) 0 ≤ chan (px i) 0 ∧
    chan ((Premultiply b frame blend).pixelAt i) 3 = chan (px i) 3 := by
  rw [Premultiply_pixelAt b px frame i blend hpx hin]
  obtain ⟨h3, h2, h1, h0⟩ := PremultiplyPixel_chan blend (px i)
  rw [if_neg hadd, if_neg hhalf] at h3
  have ha := chan_lt (px i) 3
  exact ⟨h2 ▸ premul_le _ _ ha, h1 ▸ premul_le _ _ ha, h0 ▸ premul_le _ _ ha, h3⟩

/-- Witness for C8 at the same concrete one-pixel buffer. -/
theorem premultiply_straight_attenuates_witness :
    chan ((Premultiply (ImageBuffer.mk 1 1 1 (some (fun _ => 0x80C86432))) 0
        BlendingMode.PREMULTIPLIED_ALPHA).pixelAt 0) 2
      ≤ chan ((fun _ : Nat => 0x80C86432) 0) 2 ∧
    chan ((Premultiply (ImageBuffer.mk 1 1 1 (some (fun _ => 0x80C86432))) 0
        BlendingMode.PREMULTIPLIED_ALPHA).pixelAt 0) 1
      ≤ chan ((fun _ : Nat => 0x80C86432) 0) 1 ∧
    chan ((Premultiply (ImageBuffer.mk 1 1 1 (some (fun _ => 0x80C86432))) 0
        BlendingMode.PREMULTIPLIED_ALPHA).pixelAt 0) 0
      ≤ chan ((fun _ : Nat => 0x80C86432) 0) 0 ∧
    chan ((Premultiply (ImageBuffer.mk 1 1 1 (some (fun _ => 0x80C86432))) 0
        BlendingMode.PREMULTIPLIED_ALPHA).pixelAt 0) 3
      = chan ((fun _ : Nat => 0x80C86432) 0) 3 :=
  premultiply_straight_attenuates (ImageBuffer.mk 1 1 1 (some (fun _ => 0x80C86432)))
    (fun _ => 0x80C86432) BlendingMode.PREMULTIPLIED_ALPHA 0 0 rfl (by norm_num)
    (by decide) (by decide)

/-- Claim C6: the first `Allocate` on a freshly constructed buffer fixes
`Width`/`Height`/`Frames` to the requested values, and any subsequent
`Allocate` with different values is a no-op leaving the whole buffer — stored
pixel data included — unchanged. -/
theorem allocate_fixes_dimensions (w h f w' h' : Nat) (hw : 0 < w) (hh : 0 < h)
    (hf : 0 < f) (hdiff : w' ≠ w ∨ h' ≠ h) :
    ((ImageBuffer.ofFrames f).Allocate w h).Width = w ∧
    ((ImageBuffer.ofFrames f).Allocate w h).Height = h ∧
    ((ImageBuffer.ofFrames f).Allocate w h).Frames = f ∧
    ((ImageBuffer.ofFrames f).Allocate w h).Allocate w' h'
      = (ImageBuffer.ofFrames f).Allocate w h := by
  have halloc : (ImageBuffer.ofFrames f).Allocate w h
      = ImageBuffer.mk w h f (some (fun _ => 0)) := by
    unfold ImageBuffer.Allocate ImageBuffer.ofFrames
    rw [if_neg]
    simp
    omega
  rw [halloc]
  refine ⟨rfl, rfl, rfl, ?_⟩
  unfold ImageBuffer.Allocate
  rw [if_pos]
  left
  rfl

/-- Witness for C6 with `(w, h, f) = (2, 3, 1)` and a differing second
request `(4, 3)`. -/
theorem allocate_fixes_dimensions_witness :
    0 < 2 ∧ 0 < 3 ∧ 0 < 1 ∧ ((4 : Nat) ≠ 2 ∨ (3 : Nat) ≠ 3) ∧
    (((ImageBuffer.ofFrames 1).Allocate 2 3).Width = 2 ∧
      ((ImageBuffer.ofFrames 1).Allocate 2 3).Height = 3 ∧
      ((ImageBuffer.ofFrames 1).Allocate 2 3).Frames = 1 ∧
      ((ImageBuffer.ofFrames 1).Allocate 2 3).Allocate 4 3
        = (ImageBuffer.ofFrames 1).Allocate 2 3) :=
  ⟨by decide, by decide, by decide, Or.inl (by decide),
    allocate_fixes_dimensions 2 3 1 4 3 (by decide) (by decide) (by decide)
      (Or.inl (by decide))⟩

/-- Claim C7 is false as stated: `Clear` releases the storage but does not
reset the fixed dimensions.  After allocating a 2x2 buffer and clearing it,
the storage is gone yet `Width()` still returns 2, not 0. -/
theorem width_after_clear_counterexample :
    (((ImageBuffer.ofFrames 1).Allocate 2 2).Clear 1).pixels = none ∧
    (((ImageBuffer.ofFrames 1).Allocate 2 2).Clear 1).Width = 2 :=
  ⟨rfl, rfl⟩

/-- Claim C7 (amended): `Width()` and `Height()` return 0 before the first
allocation; `Clear` releases the storage and resets the frame count but
leaves `Width()` and `Height()` at their previous values. -/
theorem width_height_zero_before_allocation (f f' : Nat) (b : ImageBuffer) :
    (ImageBuffer.ofFrames f).Width = 0 ∧ (ImageBuffer.ofFrames f).Height = 0 ∧
    (b.Clear f').pixels = none ∧ (b.Clear f').Width = b.Width ∧
    (b.Clear f').Height = b.Height :=
  ⟨rfl, rfl, rfl, rfl, rfl⟩

/-- Claim C9: for a descriptor whose extension is none of `.png`, `.jpg`,
`.jpeg`, `.jpe`, `Read` returns `false` with the buffer completely
unchanged. -/
theorem read_unsupported_extension (b : ImageBuffer) (d : ImageFileData)
    (file : Option ImageFile) (frame : Nat)
    (hext : d.extension ∉ ([".png", ".jpg", ".jpeg", ".jpe"] : List String)) :
    b.Read d file frame = (false, b) := by
  simp only [List.mem_cons, List.not_mem_nil, or_false, not_or] at hext
  have hp : d.extension ∉ PNG_EXTENSIONS := by
    simp [PNG_EXTENSIONS, hext.1]
  have hj : d.extension ∉ JPG_EXTENSIONS := by
    simp [JPG_EXTENSIONS, hext.2.1, hext.2.2.1, hext.2.2.2]
  unfold ImageBuffer.Read
  rw [if_pos ⟨hp, hj⟩]

/-- Witness for C9 with a `.gif` descriptor on an unallocated buffer. -/
theorem read_unsupported_extension_witness :
    ((".gif" : String) ∉ ([".png", ".jpg", ".jpeg", ".jpe"] : List String)) ∧
    (ImageBuffer.ofFrames 1).Read ⟨".gif", BlendingMode.ADDITIVE⟩ none 0
      = (false, ImageBuffer.ofFrames 1) :=
  ⟨by decide,
    read_unsupported_extension (ImageBuffer.ofFrames 1) ⟨".gif", BlendingMode.ADDITIVE⟩
      none 0 (by decide)⟩

/-- Claim C10: shrinking an allocated buffer with `width < 2` or `height < 2`
leaves the buffer unallocated with both dimensions reset to 0 (the frame
count is kept), because the internal `Allocate` of the half-size buffer
declines when a halved dimension is 0. -/
theorem shrink_degenerate_resets (b : ImageBuffer) (px : Nat → Nat)
    (hpx : b.pixels = some px) (hdim : b.width < 2 ∨ b.height < 2) :
    b.ShrinkToHalfSize.pixels = none ∧ b.ShrinkToHalfSize.Width = 0 ∧
    b.ShrinkToHalfSize.Height = 0 ∧ b.ShrinkToHalfSize.Frames = b.frames := by
  have hres : (ImageBuffer.ofFrames b.frames).Allocate (b.width / 2) (b.height / 2)
      = ImageBuffer.ofFrames b.frames := by
    unfold ImageBuffer.Allocate
    rw [if_pos]
    rcases hdim with h | h
    · right; left; omega
    · right; right; left; omega
  simp only [ImageBuffer.ShrinkToHalfSize]
  rw [hres]
  exact ⟨rfl, rfl, rfl, rfl⟩

/-- Witness for C10: a 1x10 single-frame allocated buffer; the height lane
is reset to 0 rather than halved to 5. -/
theorem shrink_degenerate_resets_witness :
    (ImageBuffer.mk 1 10 1 (some (fun _ => 7))).pixels = some (fun _ => 7) ∧
    ((1 : Nat) < 2 ∨ (10 : Nat) < 2) ∧
    ((ImageBuffer.mk 1 10 1 (some (fun _ => 7))).ShrinkToHalfSize.pixels = none ∧
      (ImageBuffer.mk 1 10 1 (some (fun _ => 7))).ShrinkToHalfSize.Width = 0 ∧
      (ImageBuffer.mk 1 10 1 (some (fun _ => 7))).ShrinkToHalfSize.Height = 0 ∧
      (ImageBuffer.mk 1 10 1 (some (fun _ => 7))).ShrinkToHalfSize.Frames = 1) :=
  ⟨rfl, Or.inl (by decide),
    shrink_degenerate_resets (ImageBuffer.mk 1 10 1 (some (fun _ => 7))) (fun _ => 7)
      rfl (Or.inl (by decide))⟩

/-- The two extension families are disjoint. -/
lemma png_not_jpg {s : String} (h : s ∈ PNG_EXTENSIONS) : s ∉ JPG_EXTENSIONS := by
  simp only [PNG_EXTENSIONS, List.mem_singleton] at h
  simp [JPG_EXTENSIONS, h]

/-- Claim C2: decoding a later frame whose header dimensions differ from the
buffer's already-fixed width or height fails and leaves the buffer — every
previously decoded frame included — completely unchanged, on the PNG path,
on the JPEG path, and through `Read`. -/
theorem read_dimension_mismatch (b : ImageBuffer) (px : Nat → Nat) (f : ImageFile)
    (d : ImageFileData) (frame : Nat) (hpx : b.pixels = some px)
    (hdim : f.width ≠ b.Width ∨ f.height ≠ b.Height)
    (hext : d.extension ∈ PNG_EXTENSIONS ∨ d.extension ∈ JPG_EXTENSIONS) :
    ReadPNG (some f) b frame = (false, b) ∧
    ReadJPG (some f) b frame = (false, b) ∧
    b.Read d (some f) frame = (false, b) := by
  have hnoop : b.Allocate f.width f.height = b := by
    unfold ImageBuffer.Allocate
    rw [if_pos]
    left
    rw [hpx]
    rfl
  have hcond : f.width = 0 ∨ f.height = 0 ∨
      f.width ≠ (b.Allocate f.width f.height).Width ∨
      f.height ≠ (b.Allocate f.width f.height).Height := by
    rw [hnoop]
    tauto
  have hpng : ReadPNG (some f) b frame = (false, b) := by
    simp only [ReadPNG]
    rw [if_pos hcond, hnoop]
  have hjpg : ReadJPG (some f) b frame = (false, b) := by
    simp only [ReadJPG]
    rw [if_pos hcond, hnoop]
  refine ⟨hpng, hjpg, ?_⟩
  by_cases hP : d.extension ∈ PNG_EXTENSIONS
  · simp [ImageBuffer.Read, hP, hpng]
  · have hJ : d.extension ∈ JPG_EXTENSIONS := hext.resolve_left hP
    simp [ImageBuffer.Read, hP, hJ, hjpg]

/-- Witness for C2: a 2x2 single-frame allocated buffer against a 3x2
header, with a `.png` descriptor. -/
theorem read_dimension_mismatch_witness :
    (ImageBuffer.mk 2 2 1 (some (fun _ => 9))).pixels = some (fun _ => 9) ∧
    ((3 : Nat) ≠ (ImageBuffer.mk 2 2 1 (some (fun _ => 9))).Width ∨
      (2 : Nat) ≠ (ImageBuffer.mk 2 2 1 (some (fun _ => 9))).Height) ∧
    (ReadPNG (some ⟨3, 2, fun i => i⟩) (ImageBuffer.mk 2 2 1 (some (fun _ => 9))) 0
        = (false, ImageBuffer.mk 2 2 1 (some (fun _ => 9))) ∧
      ReadJPG (some ⟨3, 2, fun i => i⟩) (ImageBuffer.mk 2 2 1 (some (fun _ => 9))) 0
        = (false, ImageBuffer.mk 2 2 1 (some (fun _ => 9))) ∧
      (ImageBuffer.mk 2 2 1 (some (fun _ => 9))).Read ⟨".png", BlendingMode.STRAIGHT_ALPHA⟩
          (some ⟨3, 2, fun i => i⟩) 0
        = (false, ImageBuffer.mk 2 2 1 (some (fun _ => 9)))) :=
  ⟨rfl, Or.inl (by decide),
    read_dimension_mismatch (ImageBuffer.mk 2 2 1 (some (fun _ => 9))) (fun _ => 9)
      ⟨3, 2, fun i => i⟩ ⟨".png", BlendingMode.STRAIGHT_ALPHA⟩ 0 rfl
      (Or.inl (by decide)) (Or.inl (by decide))⟩

/-- Claim C3: on a successful decode, `Read` premultiplies the decoded frame
exactly when the blending mode is not `PREMULTIPLIED_ALPHA` and the file is
a PNG, or is a JPEG decoded with `ADDITIVE` blending; in every other
successful case the decoded buffer is returned untouched. -/
theorem read_premultiplies_exactly_when (b b' : ImageBuffer) (d : ImageFileData)
    (file : Option ImageFile) (frame : Nat)
    (hext : d.extension ∈ PNG_EXTENSIONS ∨ d.extension ∈ JPG_EXTENSIONS)
    (hdec : (if d.extension ∈ PNG_EXTENSIONS then ReadPNG file b frame
        else ReadJPG file b frame) = (true, b')) :
    b.Read d file frame =
      (true, if d.blendingMode ≠ BlendingMode.PREMULTIPLIED_ALPHA ∧
          (d.extension ∈ PNG_EXTENSIONS ∨
            (d.extension ∈ JPG_EXTENSIONS ∧ d.blendingMode = BlendingMode.ADDITIVE))
        then Premultiply b' frame d.blendingMode else b') := by
  by_cases hP : d.extension ∈ PNG_EXTENSIONS
  · have hJ : d.extension ∉ JPG_EXTENSIONS := png_not_jpg hP
    rw [if_pos hP] at hdec
    simp [ImageBuffer.Read, hP, hJ, hdec]
  · have hJ : d.extension ∈ JPG_EXTENSIONS := hext.resolve_left hP
    rw [if_neg hP] at hdec
    simp [ImageBuffer.Read, hP, hJ, hdec]

/-- Witness for C3: a 1x1 PNG decoded into a fresh buffer with `ADDITIVE`
blending (a premultiplying combination). -/
theorem read_premultiplies_exactly_when_witness :
    ((".png" : String) ∈ PNG_EXTENSIONS ∨ (".png" : String) ∈ JPG_EXTENSIONS) ∧
    (if (".png" : String) ∈ PNG_EXTENSIONS
        then ReadPNG (some ⟨1, 1, fun _ => 5⟩) (ImageBuffer.ofFrames 1) 0
        else ReadJPG (some ⟨1, 1, fun _ => 5⟩) (ImageBuffer.ofFrames 1) 0)
      = (true, writeFrame ((ImageBuffer.ofFrames 1).Allocate 1 1) 0 (fun _ => 5)) ∧
    (ImageBuffer.ofFrames 1).Read ⟨".png", BlendingMode.ADDITIVE⟩
        (some ⟨1, 1, fun _ => 5⟩) 0
      = (true, if BlendingMode.ADDITIVE ≠ BlendingMode.PREMULTIPLIED_ALPHA ∧
            ((".png" : String) ∈ PNG_EXTENSIONS ∨
              ((".png" : String) ∈ JPG_EXTENSIONS ∧
                BlendingMode.ADDITIVE = BlendingMode.ADDITIVE))
          then Premultiply (writeFrame ((ImageBuffer.ofFrames 1).Allocate 1 1) 0
            (fun _ => 5)) 0 BlendingMode.ADDITIVE
          else writeFrame ((ImageBuffer.ofFrames 1).Allocate 1 1) 0 (fun _ => 5)) :=
  ⟨Or.inl (by decide), rfl,
    read_premultiplies_exactly_when (ImageBuffer.ofFrames 1)
      (writeFrame ((ImageBuffer.ofFrames 1).Allocate 1 1) 0 (fun _ => 5))
      ⟨".png", BlendingMode.ADDITIVE⟩ (some ⟨1, 1, fun _ => 5⟩) 0
      (Or.inl (by decide)) rfl⟩

/-- Every byte view of the storage is byte-sized. -/
lemma byteAt_lt (b : ImageBuffer) (i : Nat) : b.byteAt i < 256 :=
  chan_lt _ _

/-- Byte `c` of pixel `q` under the little-endian byte view. -/
lemma byteAt_four (b : ImageBuffer) (px : Nat → Nat) (hpx : b.pixels = some px)
    (q c : Nat) (hc : c < 4) : b.byteAt (4 * q + c) = chan (px q) c := by
  simp only [ImageBuffer.byteAt, ImageBuffer.pixelAt, hpx]
  have hdiv : (4 * q + c) / 4 = q := by omega
  have hmod : (4 * q + c) % 4 = c := by omega
  rw [hdiv, hmod]

/-- A rounded average of four bytes is a byte. -/
lemma outByte_lt (a1 a2 a3 a4 : Nat) (h1 : a1 < 256) (h2 : a2 < 256) (h3 : a3 < 256)
    (h4 : a4 < 256) : (a1 + a2 + a3 + a4 + 2) / 4 < 256 := by
  omega

/-- Channel extraction from a value packed additively from four bytes. -/
lemma chan_pack_bytes (b0 b1 b2 b3 : Nat) (h0 : b0 < 256) (h1 : b1 < 256) (h2 : b2 < 256)
    (h3 : b3 < 256) :
    chan (b0 + 256 * b1 + 65536 * b2 + 16777216 * b3) 0 = b0 ∧
    chan (b0 + 256 * b1 + 65536 * b2 + 16777216 * b3) 1 = b1 ∧
    chan (b0 + 256 * b1 + 65536 * b2 + 16777216 * b3) 2 = b2 ∧
    chan (b0 + 256 * b1 + 65536 * b2 + 16777216 * b3) 3 = b3 := by
  unfold chan
  norm_num
  omega

/-- When both halved dimensions and the frame count are nonzero,
`ShrinkToHalfSize` allocates and fills the half-size buffer. -/
lemma ShrinkToHalfSize_eq (b : ImageBuffer) (hw : b.width / 2 ≠ 0) (hh : b.height / 2 ≠ 0)
    (hf : b.frames ≠ 0) :
    b.ShrinkToHalfSize = ImageBuffer.mk (b.width / 2) (b.height / 2) b.frames
      (some (fun p =>
        let x := p % (b.width / 2)
        let y := p / (b.width / 2)
        let outByte := fun c =>
          (b.byteAt (4 * b.width * (2 * y) + 8 * x + c)
            + b.byteAt (4 * b.width * (2 * y + 1) + 8 * x + c)
            + b.byteAt (4 * b.width * (2 * y) + 8 * x + c + 4)
            + b.byteAt (4 * b.width * (2 * y + 1) + 8 * x + c + 4) + 2) / 4
        outByte 0 + 256 * outByte 1 + 65536 * outByte 2 + 16777216 * outByte 3)) := by
  have halloc : (ImageBuffer.ofFrames b.frames).Allocate (b.width / 2) (b.height / 2)
      = ImageBuffer.mk (b.width / 2) (b.height / 2) b.frames (some (fun _ => 0)) := by
    unfold ImageBuffer.Allocate ImageBuffer.ofFrames
    rw [if_neg]
    simp [hw, hh, hf]
  simp only [ImageBuffer.ShrinkToHalfSize]
  rw [halloc]

/-- One output byte of the downscaler, rewritten to the claim's same-frame
2x2 window under the row-correspondence hypothesis `heven2`. -/
lemma shrink_outByte (b : ImageBuffer) (px : Nat → Nat) (x y f c : Nat)
    (hpx : b.pixels = some px)
    (heven2 : 2 * (y + b.height / 2 * f) = 2 * y + b.height * f) (hc : c < 4) :
    (b.byteAt (4 * b.width * (2 * (y + b.height / 2 * f)) + 8 * x + c)
      + b.byteAt (4 * b.width * (2 * (y + b.height / 2 * f) + 1) + 8 * x + c)
      + b.byteAt (4 * b.width * (2 * (y + b.height / 2 * f)) + 8 * x + c + 4)
      + b.byteAt (4 * b.width * (2 * (y + b.height / 2 * f) + 1) + 8 * x + c + 4) + 2) / 4
    = (chan (px (2 * x + b.width * (2 * y + b.height * f))) c
      + chan (px (2 * x + 1 + b.width * (2 * y + b.height * f))) c
      + chan (px (2 * x + b.width * (2 * y + 1 + b.height * f))) c
      + chan (px (2 * x + 1 + b.width * (2 * y + 1 + b.height * f))) c + 2) / 4 := by
  have e1 : 4 * b.width * (2 * (y + b.height / 2 * f)) + 8 * x + c
      = 4 * (b.width * (2 * (y + b.height / 2 * f)) + 2 * x) + c := by ring
  have e2 : 4 * b.width * (2 * (y + b.height / 2 * f) + 1) + 8 * x + c
      = 4 * (b.width * (2 * (y + b.height / 2 * f) + 1) + 2 * x) + c := by ring
  have e3 : 4 * b.width * (2 * (y + b.height / 2 * f)) + 8 * x + c + 4
      = 4 * (b.width * (2 * (y + b.height / 2 * f)) + 2 * x + 1) + c := by ring
  have e4 : 4 * b.width * (2 * (y + b.height / 2 * f) + 1) + 8 * x + c + 4
      = 4 * (b.width * (2 * (y + b.height / 2 * f) + 1) + 2 * x + 1) + c := by ring
  rw [e3, e4, e1, e2, byteAt_four b px hpx _ c hc, byteAt_four b px hpx _ c hc,
    byteAt_four b px hpx _ c hc, byteAt_four b px hpx _ c hc, heven2]
  have i3 : b.width * (2 * y + b.height * f) + 2 * x + 1
      = 2 * x + 1 + b.width * (2 * y + b.height * f) := by ring
  have i4 : b.width * (2 * y + b.height * f + 1) + 2 * x + 1
      = 2 * x + 1 + b.width * (2 * y + 1 + b.height * f) := by ring
  have i1 : b.width * (2 * y + b.height * f) + 2 * x
      = 2 * x + b.width * (2 * y + b.height * f) := by ring
  have i2 : b.width * (2 * y + b.height * f + 1) + 2 * x
      = 2 * x + b.width * (2 * y + 1 + b.height * f) := by ring
  rw [i3, i4, i1, i2]
  omega

/-- Claim C1 (amended): for every allocated buffer with `width ≥ 2`,
`height ≥ 2`, a positive frame count, and height even or a single frame,
`ShrinkToHalfSize` yields a `width/2` by `height/2` buffer with the same
frame count in which every channel of every output pixel `(x, y, frame)` is
the `(a+b+c+d+2)/4` rounded average of the input pixels
`(2x,2y), (2x+1,2y), (2x,2y+1), (2x+1,2y+1)` of the same frame.  (As stated
the claim also covered odd heights with several frames, where the code's
flat-row walk crosses frame boundaries — see the counterexample — and
degenerate dimensions, where the buffer collapses per claim C10.) -/
theorem shrink_box_filter (b : ImageBuffer) (px : Nat → Nat) (x y f c : Nat)
    (hpx : b.pixels = some px) (hw : 2 ≤ b.width) (hh : 2 ≤ b.height)
    (hf : 0 < b.frames) (heven : b.height % 2 = 0 ∨ b.frames = 1)
    (hx : x < b.width / 2) (hy : y < b.height / 2) (hfr : f < b.frames) (hc : c < 4) :
    b.ShrinkToHalfSize.Width = b.width / 2 ∧
    b.ShrinkToHalfSize.Height = b.height / 2 ∧
    b.ShrinkToHalfSize.Frames = b.frames ∧
    chan (b.ShrinkToHalfSize.pixelAt (x + b.width / 2 * (y + b.height / 2 * f))) c =
      (chan (px (2 * x + b.width * (2 * y + b.height * f))) c
        + chan (px (2 * x + 1 + b.width * (2 * y + b.height * f))) c
        + chan (px (2 * x + b.width * (2 * y + 1 + b.height * f))) c
        + chan (px (2 * x + 1 + b.width * (2 * y + 1 + b.height * f))) c + 2) / 4 := by
  have hkey : 2 * (y + b.height / 2 * f) = 2 * y + b.height * f := by
    rcases heven with he | h1
    · have h2 : b.height / 2 * 2 = b.height := by omega
      calc 2 * (y + b.height / 2 * f) = 2 * y + b.height / 2 * 2 * f := by ring
        _ = 2 * y + b.height * f := by rw [h2]
    · have hf0 : f = 0 := by omega
      rw [hf0]
      ring
  rw [ShrinkToHalfSize_eq b (by omega) (by omega) (by omega)]
  refine ⟨rfl, rfl, rfl, ?_⟩
  simp only [ImageBuffer.pixelAt]
  have hxmod : (x + b.width / 2 * (y + b.height / 2 * f)) % (b.width / 2) = x := by
    rw [Nat.add_mul_mod_self_left, Nat.mod_eq_of_lt hx]
  have hydiv : (x + b.width / 2 * (y + b.height / 2 * f)) / (b.width / 2)
      = y + b.height / 2 * f := by
    rw [Nat.add_mul_div_left _ _ (by omega : 0 < b.width / 2), Nat.div_eq_of_lt hx,
      Nat.zero_add]
  rw [hxmod, hydiv, shrink_outByte b px x y f 0 hpx hkey (by norm_num),
    shrink_outByte b px x y f 1 hpx hkey (by norm_num),
    shrink_outByte b px x y f 2 hpx hkey (by norm_num),
    shrink_outByte b px x y f 3 hpx hkey (by norm_num)]
  have hb0 := outByte_lt _ _ _ _ (chan_lt (px (2 * x + b.width * (2 * y + b.height * f))) 0)
    (chan_lt (px (2 * x + 1 + b.width * (2 * y + b.height * f))) 0)
    (chan_lt (px (2 * x + b.width * (2 * y + 1 + b.height * f))) 0)
    (chan_lt (px (2 * x + 1 + b.width * (2 * y + 1 + b.height * f))) 0)
  have hb1 := outByte_lt _ _ _ _ (chan_lt (px (2 * x + b.width * (2 * y + b.height * f))) 1)
    (chan_lt (px (2 * x + 1 + b.width * (2 * y + b.height * f))) 1)
    (chan_lt (px (2 * x + b.width * (2 * y + 1 + b.height * f))) 1)
    (chan_lt (px (2 * x + 1 + b.width * (2 * y + 1 + b.height * f))) 1)
  have hb2 := outByte_lt _ _ _ _ (chan_lt (px (2 * x + b.width * (2 * y + b.height * f))) 2)
    (chan_lt (px (2 * x + 1 + b.width * (2 * y + b.height * f))) 2)
    (chan_lt (px (2 * x + b.width * (2 * y + 1 + b.height * f))) 2)
    (chan_lt (px (2 * x + 1 + b.width * (2 * y + 1 + b.height * f))) 2)
  have hb3 := outByte_lt _ _ _ _ (chan_lt (px (2 * x + b.width * (2 * y + b.height * f))) 3)
    (chan_lt (px (2 * x + 1 + b.width * (2 * y + b.height * f))) 3)
    (chan_lt (px (2 * x + b.width * (2 * y + 1 + b.height * f))) 3)
    (chan_lt (px (2 * x + 1 + b.width * (2 * y + 1 + b.height * f))) 3)
  interval_cases c
  · exact (chan_pack_bytes _ _ _ _ hb0 hb1 hb2 hb3).1
  · exact (chan_pack_bytes _ _ _ _ hb0 hb1 hb2 hb3).2.1
  · exact (chan_pack_bytes _ _ _ _ hb0 hb1 hb2 hb3).2.2.1
  · exact (chan_pack_bytes _ _ _ _ hb0 hb1 hb2 hb3).2.2.2

/-- Claim C1 is false as stated: with an odd height and more than one frame,
the byte-walking loop reads flat rows `2y, 2y+1` of the whole buffer, which
drift across frame boundaries.  For a 2x3 buffer with 2 frames holding pixel
values `i` at flat index `i`, the output pixel of frame 1 averages input
pixels 4,5,6,7 (giving low byte 6) while the claim's same-frame window
averages pixels 6,7,8,9 (giving 8). -/
theorem shrink_box_filter_counterexample :
    chan ((ImageBuffer.mk 2 3 2 (some (fun i => i))).ShrinkToHalfSize.pixelAt
        (0 + 2 / 2 * (0 + 3 / 2 * 1))) 0
      ≠ (chan ((fun i : Nat => i) (2 * 0 + 2 * (2 * 0 + 3 * 1))) 0
        + chan ((fun i : Nat => i) (2 * 0 + 1 + 2 * (2 * 0 + 3 * 1))) 0
        + chan ((fun i : Nat => i) (2 * 0 + 2 * (2 * 0 + 1 + 3 * 1))) 0
        + chan ((fun i : Nat => i) (2 * 0 + 1 + 2 * (2 * 0 + 1 + 3 * 1))) 0 + 2) / 4 := by
  decide

/-- Witness for the amended C1 on a 2x2 single-frame buffer holding pixel
value `i` at flat index `i`, at output pixel `(0,0)` of frame 0, channel 0. -/
theorem shrink_box_filter_witness :
    (ImageBuffer.mk 2 2 1 (some (fun i => i))).pixels = some (fun i => i) ∧
    2 ≤ (ImageBuffer.mk 2 2 1 (some (fun i => i))).width ∧
    2 ≤ (ImageBuffer.mk 2 2 1 (some (fun i => i))).height ∧
    0 < (ImageBuffer.mk 2 2 1 (some (fun i => i))).frames ∧
    ((ImageBuffer.mk 2 2 1 (some (fun i => i))).height % 2 = 0 ∨
      (ImageBuffer.mk 2 2 1 (some (fun i => i))).frames = 1) ∧
    ((ImageBuffer.mk 2 2 1 (some (fun i => i))).ShrinkToHalfSize.Width = 2 / 2 ∧
      (ImageBuffer.mk 2 2 1 (some (fun i => i))).ShrinkToHalfSize.Height = 2 / 2 ∧
      (ImageBuffer.mk 2 2 1 (some (fun i => i))).ShrinkToHalfSize.Frames = 1 ∧
      chan ((ImageBuffer.mk 2 2 1 (some (fun i => i))).ShrinkToHalfSize.pixelAt
          (0 + 2 / 2 * (0 + 2 / 2 * 0))) 0 =
        (chan ((fun i : Nat => i) (2 * 0 + 2 * (2 * 0 + 2 * 0))) 0
          + chan ((fun i : Nat => i) (2 * 0 + 1 + 2 * (2 * 0 + 2 * 0))) 0
          + chan ((fun i : Nat => i) (2 * 0 + 2 * (2 * 0 + 1 + 2 * 0))) 0
          + chan ((fun i : Nat => i) (2 * 0 + 1 + 2 * (2 * 0 + 1 + 2 * 0))) 0 + 2) / 4) :=
  ⟨rfl, by decide, by decide, by decide, Or.inl (by decide),
    shrink_box_filter (ImageBuffer.mk 2 2 1 (some (fun i => i))) (fun i => i) 0 0 0 0
      rfl (by decide) (by decide) (by decide) (Or.inl (by decide)) (by decide) (by decide)
      (by decide) (by decide)⟩
